import Mathlib

/-!
Shallow embedding of the process-graph model and validation engine of the
processbuilder repository (src/processbuilder): the data model
(`ProcessStep`, `ProcessNote`), step-identifier assignment
(`create_step_id`), the graph validators (`validate_process_flow`,
`validate_notes`, `find_missing_steps`) and the builder operations
(`add_step`, `add_note`), together with theorems settling claims about
them.  Python strings are modelled as `String`, Python lists as `List`,
Python `None` for optional text fields as `Option String`, and fallible
parsing as `Option`.
-/

/-- Calendar datetime, modelling the fields of a Python `datetime.datetime`
value as used by `ProcessStep.created_at` (models.py). -/
structure DateTime where
  year : Nat
  month : Nat
  day : Nat
  hour : Nat
  minute : Nat
  second : Nat
  microsecond : Nat
deriving DecidableEq

/-- ProcessStep (models.py): one node of the process graph.  The dataclass
default for `created_at` (`datetime.now()`, evaluated once at class
definition time) is modelled by the fixed constant `default_created_at`;
constructions always pass every field explicitly. -/
structure ProcessStep where
  step_id : String
  description : String
  decision : String
  success_outcome : String
  failure_outcome : String
  note_id : Option String
  next_step_success : String
  next_step_failure : String
  validation_rules : Option String
  error_codes : Option String
  retry_logic : Option String
  design_feedback : Option String
  created_at : DateTime
deriving DecidableEq

/-- ProcessNote (models.py): an annotation attached to one step. -/
structure ProcessNote where
  note_id : String
  content : String
  related_step_id : String
  created_at : DateTime
deriving DecidableEq

/-- Fixed instant standing for the single evaluation of `datetime.now()` in
the dataclass field default of models.py. -/
def default_created_at : DateTime :=
  { year := 2025, month := 1, day := 1, hour := 0, minute := 0, second := 0,
    microsecond := 0 }

/-- Whitespace test used by Python str.strip on the ASCII whitespace that
can occur here. -/
def pyIsSpace (c : Char) : Bool := c = ' ' ∨ c = '\t' ∨ c = '\n' ∨ c = '\r'

/-- Python str.strip(): remove leading and trailing whitespace. -/
def pyStrip (s : String) : String :=
  String.mk (((s.toList.dropWhile pyIsSpace).reverse.dropWhile pyIsSpace).reverse)

/-- Python str.lower() on one character: ASCII uppercase letters are shifted
to lowercase; the ids in this code base are ASCII. -/
def pyLowerChar (c : Char) : Char :=
  if 'A' ≤ c ∧ c ≤ 'Z' then Char.ofNat (c.toNat + 32) else c

/-- Python str.lower(). -/
def pyLower (s : String) : String := String.mk (s.toList.map pyLowerChar)

/-- Helper for Python str.startswith: is the first list a prefix of the
second. -/
def pyStartsWithAux : List Char → List Char → Bool
  | [], _ => true
  | _ :: _, [] => false
  | p :: ps, c :: cs => if p = c then pyStartsWithAux ps cs else false

/-- Python s.startswith(pre). -/
def pyStartsWith (s pre : String) : Bool := pyStartsWithAux pre.toList s.toList

/-- ProcessStep.validate (models.py): empty-after-strip checks on the five
required fields, collecting the issue strings in source order. -/
def ProcessStep.validate (s : ProcessStep) : List String :=
  (if pyStrip s.step_id = "" then ["Step ID cannot be empty"] else []) ++
  (if pyStrip s.description = "" then ["Description cannot be empty"] else []) ++
  (if pyStrip s.decision = "" then ["Decision cannot be empty"] else []) ++
  (if pyStrip s.success_outcome = "" then ["Success outcome cannot be empty"] else []) ++
  (if pyStrip s.failure_outcome = "" then ["Failure outcome cannot be empty"] else [])

/-- ProcessNote.validate (models.py): empty-after-strip checks on the three
required fields, in source order. -/
def ProcessNote.validate (n : ProcessNote) : List String :=
  (if pyStrip n.note_id = "" then ["Note ID cannot be empty"] else []) ++
  (if pyStrip n.content = "" then ["Content cannot be empty"] else []) ++
  (if pyStrip n.related_step_id = "" then ["Related step ID cannot be empty"] else [])

/-- Digit continuation of a Python integer literal: after at least one digit
has been read, further ASCII digits are accepted with single underscores
allowed between digits, as Python `int` allows; anything else fails. -/
def pyIntDigitsAux : List Char → Nat → Option Nat
  | [], acc => some acc
  | '_' :: c :: rest, acc =>
      if c.isDigit then pyIntDigitsAux rest (acc * 10 + (c.toNat - 48)) else none
  | c :: rest, acc =>
      if c.isDigit then pyIntDigitsAux rest (acc * 10 + (c.toNat - 48)) else none

/-- Unsigned digit string of a Python integer literal: at least one ASCII
digit, then `pyIntDigitsAux`. -/
def pyIntDigits : List Char → Option Nat
  | [] => none
  | c :: rest => if c.isDigit then pyIntDigitsAux rest (c.toNat - 48) else none

/-- Python `int(str)` as applied to candidate step-id suffixes: surrounding
whitespace stripped, optional sign, ASCII digits with single underscores
permitted between digits.  `none` models the `ValueError` raise. -/
def pyInt (s : String) : Option Int :=
  match (pyStrip s).toList with
  | '-' :: rest => (pyIntDigits rest).map (fun n => -(n : Int))
  | '+' :: rest => (pyIntDigits rest).map (fun n => (n : Int))
  | l => (pyIntDigits l).map (fun n => (n : Int))

/-- Numeric suffix of `sid` relative to `base_id`: when `sid` starts with
`base_id ++ "_"`, the result of Python `int` on the remainder
(`step_id[len(base_id) + 1:]` in the source), and `none` otherwise or when
`int` raises (the `except ValueError: pass` branch). -/
def stepIdSuffix (base_id sid : String) : Option Int :=
  if pyStartsWith sid (base_id ++ "_") then pyInt (sid.drop (base_id.length + 1))
  else none

/-- create_step_id (utils/step_management.py; builder.py carries an
identical copy): the raw title is used as the id; on a collision with an
existing step_id the steps are scanned left to right, a step whose id
equals the title setting the running suffix to 1 and a step of the form
title_k raising it to the maximum seen, and the result is the title, an
underscore, and the successor of the final value. -/
def create_step_id (title : String) (existing_steps : List ProcessStep) : String :=
  if existing_steps.any (fun s => s.step_id == title) then
    let highest_suffix : Int := existing_steps.foldl (fun h s =>
      if s.step_id = title then 1
      else
        match stepIdSuffix title s.step_id with
        | some n => max h n
        | none => h) 0
    title ++ "_" ++ toString (highest_suffix + 1)
  else title

/-- Suffix-only scan: every step of the form title_k raises the accumulator
to the maximum, every other step leaves it.  `create_step_id` behaves like
this scan on the steps after the last occurrence of the bare title. -/
def suffix_fold (title : String) (l : List ProcessStep) (init : Int) : Int :=
  l.foldl (fun h s =>
    match stepIdSuffix title s.step_id with
    | some n => max h n
    | none => h) init

/-- Identifier assignment as the specification sentence words it: on a
collision the new id is title_N with N one greater than the highest
numeric suffix among existing ids of the form title_k, and N = 1 when only
the bare title collides.  This definition follows the words of the spec,
for comparison with `create_step_id`, which is translated from the
source. -/
def create_step_id_spec (title : String) (existing_steps : List ProcessStep) : String :=
  if existing_steps.any (fun s => s.step_id == title) then
    title ++ "_" ++ toString (suffix_fold title existing_steps 0 + 1)
  else title

/-- Loop body of find_missing_steps (utils/process_validation.py): for each
step in order, emit a tuple for a non-end success target absent from
`existing`, then one for a non-end failure target absent from
`existing`. -/
def find_missing_aux (existing : List String) :
    List ProcessStep → List (String × String × String)
  | [] => []
  | s :: rest =>
    (if pyLower s.next_step_success ≠ "end" ∧ s.next_step_success ∉ existing
     then [(s.next_step_success, s.step_id, "success")] else []) ++
    (if pyLower s.next_step_failure ≠ "end" ∧ s.next_step_failure ∉ existing
     then [(s.next_step_failure, s.step_id, "failure")] else []) ++
    find_missing_aux existing rest

/-- find_missing_steps (utils/process_validation.py): tuples
(missing_step_id, referencing_step_id, path_type) for every non-end
next-step reference that matches no existing step_id. -/
def find_missing_steps (steps : List ProcessStep) : List (String × String × String) :=
  find_missing_aux (steps.map (fun s => s.step_id)) steps

/-- Inner while loop of check_path inside validate_process_flow
(utils/process_validation.py).  The loop guard also tests
`current is not None`, which is vacuous here because the next-step fields
are strings.  The unbounded while loop is modelled with explicit fuel:
`none` means the fuel ran out before the loop broke or reached the end
sentinel; the termination theorem shows the fuel passed by
`validate_process_flow` always suffices.  The returned list holds the
issue the walk appended (at most one, since the loop breaks right after
appending). -/
def check_path (steps : List ProcessStep) (path_name : String) :
    Nat → String → List String → List String → Option (List String)
  | 0, _, _, _ => none
  | fuel + 1, current, visited, path =>
    if pyLower current = "end" then some []
    else
      let path2 := path ++ [current]
      if current ∈ visited then
        some ["Circular reference detected in " ++ path_name ++ " path: " ++
              String.intercalate " -> " path2]
      else
        match steps.find? (fun s => s.step_id == current) with
        | none =>
          some ["Step name \x27" ++ current ++ "\x27 referenced in " ++ path_name ++
                " path not found"]
        | some st =>
          check_path steps path_name fuel
            (if path_name = "success" then st.next_step_success else st.next_step_failure)
            (visited ++ [current]) path2

/-- The referenced_steps set built by validate_process_flow
(utils/process_validation.py): every non-end success target, then every
non-end failure target, per step in order.  The Python code accumulates a
set; here membership in this list is what matters. -/
def referenced_steps : List ProcessStep → List String
  | [] => []
  | s :: rest =>
    (if pyLower s.next_step_success ≠ "end" then [s.next_step_success] else []) ++
    (if pyLower s.next_step_failure ≠ "end" then [s.next_step_failure] else []) ++
    referenced_steps rest

/-- The disconnected set of validate_process_flow
(utils/process_validation.py): all step ids minus the referenced ids minus
the first step id (`steps[0].step_id if steps else ""`).  Python iterates
a hash set; the set is modelled as a deduplicated list, whose order only
matters for the rendering of the issue string. -/
def disconnected_steps (steps : List ProcessStep) : List String :=
  let first_step_id := match steps with | [] => "" | f :: _ => f.step_id
  ((steps.map (fun s => s.step_id)).dedup).filter
    (fun x => decide (x ∉ referenced_steps steps ∧ x ≠ first_step_id))

/-- validate_process_flow (utils/process_validation.py): the empty-process
early return, the has-end check, the success and failure walks from the
first step, and the disconnected-step check, with the issues accumulated
in source order.  The walks are run with fuel `steps.length + 1`, which
the termination theorem proves sufficient. -/
def validate_process_flow (steps : List ProcessStep) : List String :=
  match steps with
  | [] => ["Process must have at least one step"]
  | first :: _ =>
    let has_end := steps.any (fun s =>
      decide (pyLower s.next_step_success = "end" ∨ pyLower s.next_step_failure = "end"))
    let end_issues : List String :=
      if has_end then [] else ["Process must have at least one path that leads to \x27End\x27"]
    let success_issues := (check_path steps "success" (steps.length + 1) first.step_id [] []).getD []
    let failure_issues := (check_path steps "failure" (steps.length + 1) first.step_id [] []).getD []
    let disconnected := disconnected_steps steps
    end_issues ++ success_issues ++ failure_issues ++
      (if disconnected.isEmpty then []
       else ["Disconnected step names found: " ++ String.intercalate ", " disconnected])

/-- validate_notes (utils/process_validation.py): the duplicate-note-id
check (list length against deduplicated length, modelling `set`), then one
orphan message per note whose related_step_id matches no step. -/
def validate_notes (notes : List ProcessNote) (steps : List ProcessStep) : List String :=
  let note_ids := notes.map (fun n => n.note_id)
  (if note_ids.length = note_ids.dedup.length then [] else ["Duplicate note IDs found"]) ++
  notes.filterMap (fun n =>
    if steps.any (fun s => s.step_id == n.related_step_id) then none
    else some ("Note " ++ n.note_id ++ " references non-existent step name \x27" ++
               n.related_step_id ++ "\x27"))

/-- validate_next_step_id (builder.py; utils/process_validation.py is
identical): the end sentinel is always valid, otherwise the id must match
an existing step. -/
def validate_next_step_id (steps : List ProcessStep) (next_step_id : String) : Bool :=
  if pyLower next_step_id = "end" then true
  else if steps.any (fun s => s.step_id == next_step_id) then true
  else false

/-- validate_next_step (builder.py): issue strings for the two next-step
fields of `step`, success first. -/
def validate_next_step (steps : List ProcessStep) (step : ProcessStep) : List String :=
  (if validate_next_step_id steps step.next_step_success then []
   else ["Next step on success path \x27" ++ step.next_step_success ++ "\x27 does not exist"]) ++
  (if validate_next_step_id steps step.next_step_failure then []
   else ["Next step on failure path \x27" ++ step.next_step_failure ++ "\x27 does not exist"])

/-- create_missing_step_noninteractive (utils/step_management.py; builder.py
delegates to it): a step with generated text fields and both next-step
fields set to the end sentinel spelled "End".  The predecessor and
path-type parameters of the source only feed print statements and are
omitted; `created_at` takes the dataclass default. -/
def create_missing_step_noninteractive (step_id : String) : ProcessStep :=
  { step_id := step_id
    description := "Automatically generated step for: " ++ step_id
    decision := "Does the " ++ step_id ++ " step complete successfully?"
    success_outcome := "The step completed successfully."
    failure_outcome := "The step failed to complete."
    note_id := none
    next_step_success := "End"
    next_step_failure := "End"
    validation_rules := none
    error_codes := none
    retry_logic := none
    design_feedback := none
    created_at := default_created_at }

/-- The mutable collections of a ProcessBuilder (builder.py).  The process
name, counters, I/O handles and persistence state do not affect the
validation logic and are not modelled. -/
structure ProcessBuilder where
  steps : List ProcessStep
  notes : List ProcessNote
deriving DecidableEq

/-- The missing-step while loop at the end of ProcessBuilder.add_step
(builder.py), in non-interactive mode: while find_missing_steps is
non-empty, for each tuple create the default step and add it through the
same validate-then-append-then-recheck sequence as add_step (the
recursive `self.add_step(new_step, ...)` call of the source, whose
returned issue list the source only prints).  The unbounded loop and
recursion are modelled with fuel; the missing-step fixed-point theorem
shows one round adds every missing id. -/
def missing_loop : Nat → ProcessBuilder → ProcessBuilder
  | 0, b => b
  | fuel + 1, b =>
    let missing := find_missing_steps b.steps
    if missing.isEmpty then b
    else
      let b2 := missing.foldl (fun acc t =>
        let new_step := create_missing_step_noninteractive t.1
        let issues := new_step.validate ++ validate_next_step acc.steps new_step
        if issues.isEmpty then
          missing_loop fuel { acc with steps := acc.steps ++ [new_step] }
        else acc) b
      missing_loop fuel b2

/-- ProcessBuilder.add_step (builder.py), non-interactive, with the step
passed directly: validate the step in isolation and its next-step
references; on any issue return them without touching the collections;
otherwise append, run the missing-step loop, and return the advisory
issues of validate_process_flow and validate_notes over the updated
collections.  Auto-saving is I/O and not modelled. -/
def add_step (fuel : Nat) (b : ProcessBuilder) (step : ProcessStep) :
    List String × ProcessBuilder :=
  let issues := step.validate ++ validate_next_step b.steps step
  if issues.isEmpty then
    let b1 : ProcessBuilder := { b with steps := b.steps ++ [step] }
    let b2 := missing_loop fuel b1
    (validate_process_flow b2.steps ++ validate_notes b2.notes b2.steps, b2)
  else (issues, b)

/-- ASCII digit character for a value below ten. -/
def digitChar (n : Nat) : Char := Char.ofNat (48 + n)

/-- Numeric value of an ASCII digit character. -/
def digitVal (c : Char) : Nat := c.toNat - 48

/-- Two-digit zero-padded decimal rendering, as Python %02d. -/
def pad2 (n : Nat) : List Char := [digitChar (n / 10 % 10), digitChar (n % 10)]

/-- Four-digit zero-padded decimal rendering, as Python %04d. -/
def pad4 (n : Nat) : List Char :=
  [digitChar (n / 1000 % 10), digitChar (n / 100 % 10), digitChar (n / 10 % 10),
   digitChar (n % 10)]

/-- Six-digit zero-padded decimal rendering, as Python %06d. -/
def pad6 (n : Nat) : List Char :=
  [digitChar (n / 100000 % 10), digitChar (n / 10000 % 10), digitChar (n / 1000 % 10),
   digitChar (n / 100 % 10), digitChar (n / 10 % 10), digitChar (n % 10)]

/-- datetime.isoformat(): YYYY-MM-DDTHH:MM:SS, with .ffffff appended only
when the microsecond field is non-zero. -/
def DateTime.isoformat (d : DateTime) : String :=
  String.mk (pad4 d.year ++ ('-' :: (pad2 d.month ++ ('-' :: (pad2 d.day ++
    ('T' :: (pad2 d.hour ++ (':' :: (pad2 d.minute ++ (':' :: (pad2 d.second ++
    (if d.microsecond = 0 then [] else '.' :: pad6 d.microsecond))))))))))))

/-- Read exactly two ASCII digits from the front of a character list. -/
def read2 : List Char → Option (Nat × List Char)
  | a :: b :: rest =>
    if a.isDigit ∧ b.isDigit then some (digitVal a * 10 + digitVal b, rest) else none
  | _ => none

/-- Read exactly four ASCII digits from the front of a character list. -/
def read4 : List Char → Option (Nat × List Char)
  | a :: b :: c :: d :: rest =>
    if a.isDigit ∧ b.isDigit ∧ c.isDigit ∧ d.isDigit then
      some (digitVal a * 1000 + digitVal b * 100 + digitVal c * 10 + digitVal d, rest)
    else none
  | _ => none

/-- Read exactly six ASCII digits from the front of a character list. -/
def read6 : List Char → Option (Nat × List Char)
  | a :: b :: c :: d :: e :: f :: rest =>
    if a.isDigit ∧ b.isDigit ∧ c.isDigit ∧ d.isDigit ∧ e.isDigit ∧ f.isDigit then
      some (digitVal a * 100000 + digitVal b * 10000 + digitVal c * 1000 +
            digitVal d * 100 + digitVal e * 10 + digitVal f, rest)
    else none
  | _ => none

/-- Expect one given character at the front of a character list. -/
def expectChar (c : Char) : List Char → Option (List Char)
  | x :: rest => if x = c then some rest else none
  | [] => none

/-- Gregorian leap-year rule, as Python calendar.isleap. -/
def isLeapYear (y : Nat) : Bool := y % 4 = 0 ∧ (y % 100 ≠ 0 ∨ y % 400 = 0)

/-- Days in a month, as Python datetime uses to validate the day field. -/
def daysInMonth (y m : Nat) : Nat :=
  if m = 2 then (if isLeapYear y then 29 else 28)
  else if m = 4 ∨ m = 6 ∨ m = 9 ∨ m = 11 then 30
  else 31

/-- Field ranges enforced by the Python datetime constructor
(MINYEAR..MAXYEAR, month, day against the calendar, time fields). -/
def DateTime.valid (d : DateTime) : Prop :=
  1 ≤ d.year ∧ d.year ≤ 9999 ∧ 1 ≤ d.month ∧ d.month ≤ 12 ∧
  1 ≤ d.day ∧ d.day ≤ daysInMonth d.year d.month ∧
  d.hour ≤ 23 ∧ d.minute ≤ 59 ∧ d.second ≤ 59 ∧ d.microsecond ≤ 999999

instance (d : DateTime) : Decidable d.valid := by
  unfold DateTime.valid; infer_instance

/-- datetime.fromisoformat() on the strings datetime.isoformat() produces:
fixed-width date and time fields, an optional fractional-second part, and
the constructor range checks.  `none` models the ValueError raise. -/
def DateTime.fromisoformat (s : String) : Option DateTime := do
  let cs := s.toList
  let (y, cs) ← read4 cs
  let cs ← expectChar '-' cs
  let (mo, cs) ← read2 cs
  let cs ← expectChar '-' cs
  let (d, cs) ← read2 cs
  let cs ← expectChar 'T' cs
  let (h, cs) ← read2 cs
  let cs ← expectChar ':' cs
  let (mi, cs) ← read2 cs
  let cs ← expectChar ':' cs
  let (sec, cs) ← read2 cs
  let (us, cs) ←
    match cs with
    | [] => some (0, ([] : List Char))
    | '.' :: rest => read6 rest
    | _ => none
  let dt : DateTime :=
    { year := y, month := mo, day := d, hour := h, minute := mi, second := sec,
      microsecond := us }
  if cs = [] ∧ dt.valid then some dt else none

/-- The plain key-value map ProcessStep.to_dict produces (models.py): one
entry per dataclass field, with created_at rendered as an ISO string or
None. -/
structure StepDict where
  step_id : String
  description : String
  decision : String
  success_outcome : String
  failure_outcome : String
  note_id : Option String
  next_step_success : String
  next_step_failure : String
  validation_rules : Option String
  error_codes : Option String
  retry_logic : Option String
  design_feedback : Option String
  created_at : Option String
deriving DecidableEq

/-- ProcessStep.to_dict (models.py).  The source guards the isoformat call
with the truthiness of created_at; a datetime object is always truthy, so
the field is always rendered. -/
def ProcessStep.to_dict (s : ProcessStep) : StepDict :=
  { step_id := s.step_id
    description := s.description
    decision := s.decision
    success_outcome := s.success_outcome
    failure_outcome := s.failure_outcome
    note_id := s.note_id
    next_step_success := s.next_step_success
    next_step_failure := s.next_step_failure
    validation_rules := s.validation_rules
    error_codes := s.error_codes
    retry_logic := s.retry_logic
    design_feedback := s.design_feedback
    created_at := some s.created_at.isoformat }

/-- ProcessStep.from_dict (models.py): parse created_at back from its ISO
string when the entry is present and truthy, then rebuild the step from
the map.  A missing or falsy created_at entry would leave a non-datetime
value in the typed field, and an unparseable string raises ValueError;
both are modelled as `none`. -/
def ProcessStep.from_dict (d : StepDict) : Option ProcessStep :=
  match d.created_at with
  | some s =>
    if s ≠ "" then
      (DateTime.fromisoformat s).map (fun dt =>
        { step_id := d.step_id
          description := d.description
          decision := d.decision
          success_outcome := d.success_outcome
          failure_outcome := d.failure_outcome
          note_id := d.note_id
          next_step_success := d.next_step_success
          next_step_failure := d.next_step_failure
          validation_rules := d.validation_rules
          error_codes := d.error_codes
          retry_logic := d.retry_logic
          design_feedback := d.design_feedback
          created_at := dt })
    else none
  | none => none

/-- Step constructor used by the concrete examples: required text fields
filled, no note or metadata, given next-step targets. -/
def mkS (sid succ fail : String) : ProcessStep :=
  { step_id := sid
    description := "step " ++ sid
    decision := "does it work?"
    success_outcome := "it worked"
    failure_outcome := "it failed"
    note_id := none
    next_step_success := succ
    next_step_failure := fail
    validation_rules := none
    error_codes := none
    retry_logic := none
    design_feedback := none
    created_at := default_created_at }

/-- Two terminal steps A and B, B unreferenced: the P5 example. -/
def sA : ProcessStep := mkS "A" "end" "end"

/-- Second step of the P5 example. -/
def sB : ProcessStep := mkS "B" "end" "end"

/-- Step A of the two-step cycle example: success edge to B. -/
def sAcyc : ProcessStep := mkS "A" "B" "end"

/-- Step B of the two-step cycle example: success edge back to A. -/
def sBcyc : ProcessStep := mkS "B" "A" "end"

/-- A second step carrying the already-used id B. -/
def dupB : ProcessStep := { mkS "B" "end" "end" with description := "a second step reusing id B" }

/-- The note-linking loop of ProcessBuilder.add_note (builder.py): set
note_id on the first step whose step_id equals the related_step_id, then
break. -/
def link_note_to_step : List ProcessStep → ProcessNote → List ProcessStep
  | [], _ => []
  | s :: rest, note =>
    if s.step_id = note.related_step_id then
      { s with note_id := some note.note_id } :: rest
    else s :: link_note_to_step rest note

/-- ProcessBuilder.add_note (builder.py): field validation, the duplicate
note-id check, the related-step existence check, each returning its
issues without mutation; on success the note is appended and linked to
the first matching step, and the empty list returned. -/
def add_note (b : ProcessBuilder) (note : ProcessNote) : List String × ProcessBuilder :=
  let issues := note.validate
  if issues.isEmpty then
    if b.notes.any (fun n => n.note_id == note.note_id) then
      (["Note ID \x27" ++ note.note_id ++ "\x27 already exists"], b)
    else if !(b.steps.any (fun s => s.step_id == note.related_step_id)) then
      (["Related step \x27" ++ note.related_step_id ++ "\x27 does not exist"], b)
    else
      ([], { b with notes := b.notes ++ [note], steps := link_note_to_step b.steps note })
  else (issues, b)

/-! Helper lemmas shared between the claim theorems. -/

/-- One loop iteration of check_path on the end sentinel: the walk stops
with no issue whenever any fuel remains. -/
theorem check_path_end_eval (steps : List ProcessStep) (pn : String) (fuel : Nat)
    (current : String) (visited path : List String)
    (hf : fuel ≠ 0) (h : pyLower current = "end") :
    check_path steps pn fuel current visited path = some [] := by
  cases fuel with
  | zero => exact absurd rfl hf
  | succ f => simp [check_path, h]

/-- One loop iteration of check_path on a resolvable, unvisited id: the walk
advances to the chosen next-step field. -/
theorem check_path_advance (steps : List ProcessStep) (pn : String) (fuel : Nat)
    (current : String) (visited path : List String) (st : ProcessStep)
    (hf : fuel ≠ 0) (h1 : pyLower current ≠ "end") (h2 : current ∉ visited)
    (hfind : steps.find? (fun s => s.step_id == current) = some st) :
    check_path steps pn fuel current visited path =
      check_path steps pn (fuel - 1)
        (if pn = "success" then st.next_step_success else st.next_step_failure)
        (visited ++ [current]) (path ++ [current]) := by
  cases fuel with
  | zero => exact absurd rfl hf
  | succ f => simp [check_path, h1, h2, hfind]

/-- Membership in the referenced_steps list: exactly the non-end success or
failure targets of some step. -/
theorem mem_referenced_steps (x : String) (l : List ProcessStep) :
    x ∈ referenced_steps l ↔
      ∃ s ∈ l, (pyLower s.next_step_success ≠ "end" ∧ s.next_step_success = x) ∨
               (pyLower s.next_step_failure ≠ "end" ∧ s.next_step_failure = x) := by
  induction l with
  | nil => simp [referenced_steps]
  | cons s rest ih =>
    by_cases hsucc : pyLower s.next_step_success = "end" <;>
      by_cases hfail : pyLower s.next_step_failure = "end" <;>
        simp [referenced_steps, hsucc, hfail, ih] <;> aesop

/-- find_missing_aux returns nothing when every next-step reference of every
step is the end sentinel or resolves inside `existing`. -/
theorem find_missing_aux_eq_nil (existing : List String) (l : List ProcessStep)
    (h : ∀ s ∈ l,
      (pyLower s.next_step_success = "end" ∨ s.next_step_success ∈ existing) ∧
      (pyLower s.next_step_failure = "end" ∨ s.next_step_failure ∈ existing)) :
    find_missing_aux existing l = [] := by
  induction l with
  | nil => rfl
  | cons s rest ih =>
    have hs := h s (by simp)
    have hsucc : ¬(pyLower s.next_step_success ≠ "end" ∧ s.next_step_success ∉ existing) := by
      tauto
    have hfail : ¬(pyLower s.next_step_failure ≠ "end" ∧ s.next_step_failure ∉ existing) := by
      tauto
    simp [find_missing_aux, hsucc, hfail]
    exact ih (fun t ht => h t (by simp [ht]))

/-- A non-end success target absent from `existing` appears among the tuples
find_missing_aux emits. -/
theorem mem_find_missing_aux_success (existing : List String) (l : List ProcessStep)
    (s : ProcessStep) (hs : s ∈ l)
    (h1 : pyLower s.next_step_success ≠ "end") (h2 : s.next_step_success ∉ existing) :
    (s.next_step_success, s.step_id, "success") ∈ find_missing_aux existing l := by
  induction l with
  | nil => cases hs
  | cons t rest ih =>
    rcases List.mem_cons.mp hs with h | h
    · subst h
      simp [find_missing_aux, h1, h2]
    · have hmem := ih h
      simp only [find_missing_aux, List.mem_append]
      tauto

/-- A non-end failure target absent from `existing` appears among the tuples
find_missing_aux emits. -/
theorem mem_find_missing_aux_failure (existing : List String) (l : List ProcessStep)
    (s : ProcessStep) (hs : s ∈ l)
    (h1 : pyLower s.next_step_failure ≠ "end") (h2 : s.next_step_failure ∉ existing) :
    (s.next_step_failure, s.step_id, "failure") ∈ find_missing_aux existing l := by
  induction l with
  | nil => cases hs
  | cons t rest ih =>
    rcases List.mem_cons.mp hs with h | h
    · subst h
      simp [find_missing_aux, h1, h2]
    · have hmem := ih h
      simp only [find_missing_aux, List.mem_append]
      tauto

/-- On a list with no step equal to the bare title, the create_step_id scan
never takes its reset branch and agrees with the suffix-only scan. -/
theorem foldl_no_bare (title : String) (l : List ProcessStep)
    (hl : ∀ s ∈ l, s.step_id ≠ title) (init : Int) :
    l.foldl (fun h s =>
      if s.step_id = title then 1
      else
        match stepIdSuffix title s.step_id with
        | some n => max h n
        | none => h) init = suffix_fold title l init := by
  induction l generalizing init with
  | nil => rfl
  | cons s rest ih =>
    have hs : s.step_id ≠ title := hl s (by simp)
    simp only [List.foldl_cons, suffix_fold, if_neg hs]
    exact ih (fun t ht => hl t (by simp [ht])) _

/-- The note-linking loop on a decomposition of the step list at the first
match: the steps before the first match are untouched, the matching step
takes the note id, the remainder is untouched. -/
theorem link_note_to_step_split (pre post : List ProcessStep) (st : ProcessStep)
    (note : ProcessNote)
    (hpre : ∀ t ∈ pre, t.step_id ≠ note.related_step_id)
    (hst : st.step_id = note.related_step_id) :
    link_note_to_step (pre ++ st :: post) note =
      pre ++ { st with note_id := some note.note_id } :: post := by
  induction pre with
  | nil => simp [link_note_to_step, hst]
  | cons p ps ih =>
    have hp : p.step_id ≠ note.related_step_id := hpre p (by simp)
    simp only [List.cons_append, link_note_to_step, if_neg hp]
    exact congrArg (List.cons p) (ih (fun t ht => hpre t (by simp [ht])))

/-- Fuel sufficiency for the check_path loop: any fuel exceeding the number
of step ids not yet visited lets the loop run to a break or to the end
sentinel.  Each iteration either stops or moves a so-far-unvisited id that
does occur among the step ids into the visited set. -/
theorem check_path_isSome_of_lt (steps : List ProcessStep) (pn : String) :
    ∀ (fuel : Nat) (current : String) (visited path : List String),
      ((steps.map ProcessStep.step_id).toFinset \ visited.toFinset).card < fuel →
      (check_path steps pn fuel current visited path).isSome = true := by
  intro fuel
  induction fuel with
  | zero => intro _ _ _ h; omega
  | succ f ih =>
    intro current visited path h
    by_cases h1 : pyLower current = "end"
    · simp [check_path, h1]
    · by_cases h2 : current ∈ visited
      · simp [check_path, h1, h2]
      · cases hfind : steps.find? (fun s => s.step_id == current) with
        | none => simp [check_path, h1, h2, hfind]
        | some st =>
          have hcur : current ∈ (steps.map ProcessStep.step_id).toFinset := by
            have hmem := List.mem_of_find?_eq_some hfind
            have hp := List.find?_some hfind
            simp only [List.mem_toFinset, List.mem_map]
            exact ⟨st, hmem, by simpa using hp⟩
          have hset : (steps.map ProcessStep.step_id).toFinset \ (visited ++ [current]).toFinset =
              ((steps.map ProcessStep.step_id).toFinset \ visited.toFinset).erase current := by
            ext a
            simp only [List.toFinset_append, Finset.mem_sdiff, Finset.mem_erase,
              Finset.mem_union, List.toFinset_cons, List.toFinset_nil,
              Finset.mem_insert, Finset.not_mem_empty, List.mem_toFinset]
            tauto
          have hdec : ((steps.map ProcessStep.step_id).toFinset \ (visited ++ [current]).toFinset).card <
              ((steps.map ProcessStep.step_id).toFinset \ visited.toFinset).card := by
            rw [hset]
            exact Finset.card_erase_lt_of_mem
              (Finset.mem_sdiff.mpr ⟨hcur, by simpa using h2⟩)
          have hrec := ih
            (if pn = "success" then st.next_step_success else st.next_step_failure)
            (visited ++ [current]) (path ++ [current]) (by omega)
          simpa [check_path, h1, h2, hfind] using hrec

/-- Digit characters round-trip through their numeric value. -/
theorem digit_facts : ∀ m < 10, digitVal (digitChar m) = m ∧ (digitChar m).isDigit = true := by
  decide

/-- Reading two digits undoes two-digit padding. -/
theorem read2_pad2 (n : Nat) (h : n < 100) (rest : List Char) :
    read2 (pad2 n ++ rest) = some (n, rest) := by
  have h1 := digit_facts (n / 10 % 10) (Nat.mod_lt _ (by norm_num))
  have h2 := digit_facts (n % 10) (Nat.mod_lt _ (by norm_num))
  simp [pad2, read2, h1.1, h1.2, h2.1, h2.2]
  omega

/-- Reading four digits undoes four-digit padding. -/
theorem read4_pad4 (n : Nat) (h : n < 10000) (rest : List Char) :
    read4 (pad4 n ++ rest) = some (n, rest) := by
  have h1 := digit_facts (n / 1000 % 10) (Nat.mod_lt _ (by norm_num))
  have h2 := digit_facts (n / 100 % 10) (Nat.mod_lt _ (by norm_num))
  have h3 := digit_facts (n / 10 % 10) (Nat.mod_lt _ (by norm_num))
  have h4 := digit_facts (n % 10) (Nat.mod_lt _ (by norm_num))
  simp [pad4, read4, h1.1, h1.2, h2.1, h2.2, h3.1, h3.2, h4.1, h4.2]
  omega

/-- Reading six digits undoes six-digit padding. -/
theorem read6_pad6 (n : Nat) (h : n < 1000000) (rest : List Char) :
    read6 (pad6 n ++ rest) = some (n, rest) := by
  have h1 := digit_facts (n / 100000 % 10) (Nat.mod_lt _ (by norm_num))
  have h2 := digit_facts (n / 10000 % 10) (Nat.mod_lt _ (by norm_num))
  have h3 := digit_facts (n / 1000 % 10) (Nat.mod_lt _ (by norm_num))
  have h4 := digit_facts (n / 100 % 10) (Nat.mod_lt _ (by norm_num))
  have h5 := digit_facts (n / 10 % 10) (Nat.mod_lt _ (by norm_num))
  have h6 := digit_facts (n % 10) (Nat.mod_lt _ (by norm_num))
  simp [pad6, read6, h1.1, h1.2, h2.1, h2.2, h3.1, h3.2, h4.1, h4.2, h5.1, h5.2, h6.1, h6.2]
  omega

theorem daysInMonth_le (y m : Nat) : daysInMonth y m ≤ 31 := by
  unfold daysInMonth
  split_ifs <;> omega

theorem read2_pad2_nil (n : Nat) (h : n < 100) : read2 (pad2 n) = some (n, []) := by
  have h2 := read2_pad2 n h []
  rwa [List.append_nil] at h2

theorem read6_pad6_nil (n : Nat) (h : n < 1000000) : read6 (pad6 n) = some (n, []) := by
  have h2 := read6_pad6 n h []
  rwa [List.append_nil] at h2

set_option maxHeartbeats 2000000 in
theorem fromisoformat_isoformat (d : DateTime) (h : d.valid) :
    DateTime.fromisoformat d.isoformat = some d := by
  obtain ⟨hy1, hy2, hm1, hm2, hd1, hd2, hh, hmi, hs, hus⟩ := h
  have hvalid : DateTime.valid ⟨d.year, d.month, d.day, d.hour, d.minute, d.second,
    d.microsecond⟩ := ⟨hy1, hy2, hm1, hm2, hd1, hd2, hh, hmi, hs, hus⟩
  have hd31 := daysInMonth_le d.year d.month
  by_cases hz : d.microsecond = 0
  · have hv0 : DateTime.valid ⟨d.year, d.month, d.day, d.hour, d.minute, d.second, 0⟩ := by
      rw [← hz]
      exact hvalid
    simp only [DateTime.fromisoformat, DateTime.isoformat, String.toList, hz, reduceIte,
      List.append_nil]
    simp only [read4_pad4 d.year (by omega : d.year < 10000),
      read2_pad2 d.month (by omega : d.month < 100),
      read2_pad2 d.day (by omega : d.day < 100),
      read2_pad2 d.hour (by omega : d.hour < 100),
      read2_pad2 d.minute (by omega : d.minute < 100),
      read2_pad2_nil d.second (by omega : d.second < 100),
      Option.bind_eq_bind, Option.some_bind, expectChar, reduceIte]
    simp only [true_and]
    rw [if_pos hv0, ← hz]
  · simp only [DateTime.fromisoformat, DateTime.isoformat, String.toList, if_neg hz]
    simp only [read4_pad4 d.year (by omega : d.year < 10000),
      read2_pad2 d.month (by omega : d.month < 100),
      read2_pad2 d.day (by omega : d.day < 100),
      read2_pad2 d.hour (by omega : d.hour < 100),
      read2_pad2 d.minute (by omega : d.minute < 100),
      read2_pad2 d.second (by omega : d.second < 100),
      read6_pad6_nil d.microsecond (by omega : d.microsecond < 1000000),
      Option.bind_eq_bind, Option.some_bind, expectChar, reduceIte]
    simp only [true_and]
    rw [if_pos hvalid]

/-- Claim C1 (corrected), counterexample: with the single existing step
Checkout, create_step_id returns Checkout_2, not Checkout_1 as the claim
states, because the bare-title branch of the scan sets the running suffix
to 1; and on [Checkout_5, Checkout] the scan order yields Checkout_2 even
though the highest numeric suffix is 5, diverging from the spec-worded
rule create_step_id_spec. -/
theorem c1_counterexample :
    create_step_id "Checkout" [mkS "Checkout" "end" "end"] = "Checkout_2" ∧
    create_step_id "Checkout" [mkS "Checkout" "end" "end"] ≠ "Checkout_1" ∧
    create_step_id "Checkout"
      [mkS "Checkout_5" "end" "end", mkS "Checkout" "end" "end"] = "Checkout_2" ∧
    create_step_id_spec "Checkout"
      [mkS "Checkout_5" "end" "end", mkS "Checkout" "end" "end"] = "Checkout_6" := by
  refine ⟨by decide, by decide, by decide, by decide⟩

/-- Claim C1 (corrected), amended claim: on a collision create_step_id
returns title_(h+1) where h is the left-to-right scan value in which a
bare-title step resets the accumulator to 1 and a title_k step raises it
to the maximum; equivalently, h is the suffix-only scan started at 1 over
the steps after the last occurrence of the bare title.  In particular a
bare-only collision yields title_2, and suffixed ids occurring before the
last bare occurrence are ignored. -/
theorem c1_amended_scan (title : String) (pre post : List ProcessStep) (b : ProcessStep)
    (hb : b.step_id = title) (hpost : ∀ s ∈ post, s.step_id ≠ title) :
    create_step_id title (pre ++ b :: post) =
      title ++ "_" ++ toString (suffix_fold title post 1 + 1) := by
  have hany : (pre ++ b :: post).any (fun s => s.step_id == title) = true := by
    simp only [List.any_eq_true]
    exact ⟨b, by simp, by simp [hb]⟩
  simp only [create_step_id, hany, reduceIte]
  simp only [List.foldl_append, List.foldl_cons, if_pos hb]
  rw [foldl_no_bare title post hpost 1]

/-- Claim C1 amended-claim witness: the scan rule applied at a concrete
collision list. -/
theorem c1_amended_scan_witness :
    create_step_id "Checkout"
      [mkS "Checkout_5" "end" "end", mkS "Checkout" "end" "end",
       mkS "Checkout_1" "end" "end"] =
      "Checkout" ++ "_" ++
        toString (suffix_fold "Checkout" [mkS "Checkout_1" "end" "end"] 1 + 1) :=
  c1_amended_scan "Checkout" [mkS "Checkout_5" "end" "end"]
    [mkS "Checkout_1" "end" "end"] (mkS "Checkout" "end" "end") rfl (by decide)

/-- Claim C2 (code bug): ProcessBuilder.add_step performs no duplicate
step-id check.  Adding a second step with the already-stored id B passes
per-step validation, is appended, and the advisory re-check returns the
empty issue list, so the stored collection ends with two steps sharing
the id B. -/
theorem c2_duplicate_add_step :
    sB.step_id = dupB.step_id ∧
    (add_step 1 (ProcessBuilder.mk [sAcyc, sB] []) dupB).1 = [] ∧
    (add_step 1 (ProcessBuilder.mk [sAcyc, sB] []) dupB).2.steps = [sAcyc, sB, dupB] := by
  refine ⟨rfl, by decide, by decide⟩

/-- Claim C3 (corrected), counterexample: check_path appends the current id
to the path before the visited test, so the two-step cycle A to B and
back renders the revisited id a second time: the emitted issue ends in
A -> B -> A, and the message the claim states (ending in A -> B) does not
occur in the result. -/
theorem c3_counterexample :
    validate_process_flow [sAcyc, sBcyc] =
      ["Circular reference detected in success path: A -> B -> A"] ∧
    "Circular reference detected in success path: A -> B" ∉
      validate_process_flow [sAcyc, sBcyc] := by
  refine ⟨by decide, by decide⟩

/-- Claim C3 (corrected), amended claim: the append to path happens before
the membership test against visited, so on a revisited id the walk emits
the circular-reference issue rendering path ++ [current], with the
revisited id appended a second time, and stops. -/
theorem c3_cycle_message (steps : List ProcessStep) (path_name current : String)
    (fuel : Nat) (visited path : List String)
    (h1 : pyLower current ≠ "end") (h2 : current ∈ visited) :
    check_path steps path_name (fuel + 1) current visited path =
      some ["Circular reference detected in " ++ path_name ++ " path: " ++
            String.intercalate " -> " (path ++ [current])] := by
  simp [check_path, h1, h2]

/-- Claim C3 amended-claim witness: the walk state reached in the A-B cycle
emits the message with A appended a second time. -/
theorem c3_cycle_message_witness :
    check_path [sAcyc, sBcyc] "success" 3 "A" ["A", "B"] ["A", "B"] =
      some ["Circular reference detected in success path: A -> B -> A"] :=
  (c3_cycle_message [sAcyc, sBcyc] "success" "A" 2 ["A", "B"] ["A", "B"]
    (by decide) (by decide)).trans (by decide)

/-- Claim C6 (confirmed): when the walk reaches a non-end id that is not in
the visited set and matches no step in the collection, check_path appends
the missing-reference issue naming the id and the path kind, and stops. -/
theorem c6_missing_reference (steps : List ProcessStep) (path_name current : String)
    (fuel : Nat) (visited path : List String)
    (h1 : pyLower current ≠ "end") (h2 : current ∉ visited)
    (h3 : ∀ s ∈ steps, s.step_id ≠ current) :
    check_path steps path_name (fuel + 1) current visited path =
      some ["Step name \x27" ++ current ++ "\x27 referenced in " ++ path_name ++
            " path not found"] := by
  have hf : steps.find? (fun s => s.step_id == current) = none :=
    List.find?_eq_none.mpr (fun s hs => by simpa using h3 s hs)
  simp [check_path, h1, h2, hf]

/-- Claim C6 witness: the walk state reached from a step pointing at the
undefined id Missing emits the missing-reference issue. -/
theorem c6_missing_reference_witness :
    check_path [sA] "success" 2 "Missing" ["A"] ["A"] =
      some ["Step name \x27Missing\x27 referenced in success path not found"] :=
  (c6_missing_reference [sA] "success" "Missing" 1 ["A"] ["A"]
    (by decide) (by decide) (by decide)).trans (by decide)

/-- Claim C10 (confirmed): the check_path walk terminates within the number
of distinct step ids plus one iterations, from any start id; in
particular the fuel steps.length + 1 that validate_process_flow passes
never runs out, so the validator is total. -/
theorem c10_termination (steps : List ProcessStep) (path_name current : String) :
    (check_path steps path_name ((steps.map ProcessStep.step_id).dedup.length + 1)
        current [] []).isSome = true ∧
    (check_path steps path_name (steps.length + 1) current [] []).isSome = true := by
  constructor
  · apply check_path_isSome_of_lt
    rw [List.toFinset_nil, Finset.sdiff_empty, List.card_toFinset]
    omega
  · apply check_path_isSome_of_lt
    have h1 : ((steps.map ProcessStep.step_id).toFinset).card ≤
        (steps.map ProcessStep.step_id).length := List.toFinset_card_le _
    rw [List.toFinset_nil, Finset.sdiff_empty]
    rw [List.length_map] at h1
    omega

/-- Claim C4 (confirmed): the disconnected set is a global check exempting
only the first step: it holds exactly the step ids that are neither a
non-end success or failure target of any step nor equal to the first
step id; and in the P5 example [A, B] with both steps terminal, B is
flagged while the unreferenced first step A is not. -/
theorem c4_disconnected :
    (∀ (steps : List ProcessStep) (h : steps ≠ []) (x : String),
        x ∈ disconnected_steps steps ↔
          (x ∈ steps.map ProcessStep.step_id ∧
           ¬(∃ s ∈ steps,
              (pyLower s.next_step_success ≠ "end" ∧ s.next_step_success = x) ∨
              (pyLower s.next_step_failure ≠ "end" ∧ s.next_step_failure = x)) ∧
           x ≠ (steps.head h).step_id)) ∧
    validate_process_flow [sA, sB] = ["Disconnected step names found: B"] := by
  constructor
  · intro steps h x
    match steps, h with
    | first :: rest, _ =>
      simp only [disconnected_steps, List.mem_filter, List.mem_dedup, List.head_cons,
        decide_eq_true_eq, mem_referenced_steps]
  · decide

/-- Claim C4 witness: in the P5 example the id B is in the disconnected
set. -/
theorem c4_disconnected_witness : "B" ∈ disconnected_steps [sA, sB] :=
  (c4_disconnected.1 [sA, sB] (by decide) "B").mpr (by decide)

/-- Claim C5 (confirmed): appending, for every tuple find_missing_steps
returns, the default auto-generated step carrying the missing id with both
next-step fields End, makes find_missing_steps of the extended collection
empty: the auto-generation loop reaches its fixed point after one round
of insertions. -/
theorem c5_missing_fixed_point (steps : List ProcessStep) :
    find_missing_steps
      (steps ++ (find_missing_steps steps).map
        (fun t => create_missing_step_noninteractive t.1)) = [] := by
  apply find_missing_aux_eq_nil
  intro s hs
  rcases List.mem_append.mp hs with hstep | hnew
  · have hmapped : ∀ y : String,
        y ∈ (find_missing_steps steps).map (fun t => t.1) →
        y ∈ (steps ++ (find_missing_steps steps).map
            (fun t => create_missing_step_noninteractive t.1)).map
          (fun s => s.step_id) := by
      intro y hy
      rw [List.map_append, List.map_map]
      refine List.mem_append_right _ ?_
      simpa [Function.comp, create_missing_step_noninteractive] using hy
    constructor
    · by_cases h1 : pyLower s.next_step_success = "end"
      · exact Or.inl h1
      · by_cases h2 : s.next_step_success ∈ steps.map (fun s => s.step_id)
        · refine Or.inr ?_
          rw [List.map_append]
          exact List.mem_append_left _ h2
        · refine Or.inr ?_
          refine hmapped _ ?_
          have hm := mem_find_missing_aux_success (steps.map (fun s => s.step_id))
            steps s hstep h1 h2
          exact List.mem_map.mpr ⟨_, hm, rfl⟩
    · by_cases h1 : pyLower s.next_step_failure = "end"
      · exact Or.inl h1
      · by_cases h2 : s.next_step_failure ∈ steps.map (fun s => s.step_id)
        · refine Or.inr ?_
          rw [List.map_append]
          exact List.mem_append_left _ h2
        · refine Or.inr ?_
          refine hmapped _ ?_
          have hm := mem_find_missing_aux_failure (steps.map (fun s => s.step_id))
            steps s hstep h1 h2
          exact List.mem_map.mpr ⟨_, hm, rfl⟩
  · obtain ⟨t, ht, rfl⟩ := List.mem_map.mp hnew
    have hEnd : pyLower "End" = "end" := by decide
    exact ⟨Or.inl hEnd, Or.inl hEnd⟩

/-- Claim C7 (confirmed): validate_process_flow on the empty collection
returns exactly the one-element must-have-a-step issue list; on a single
step whose two next-step fields lower to the end sentinel it returns no
issues at all. -/
theorem c7_base_cases :
    validate_process_flow [] = ["Process must have at least one step"] ∧
    ∀ s : ProcessStep, pyLower s.next_step_success = "end" →
      pyLower s.next_step_failure = "end" → validate_process_flow [s] = [] := by
  refine ⟨rfl, ?_⟩
  intro s h1 h2
  have hfind : [s].find? (fun t => t.step_id == s.step_id) = some s :=
    List.find?_cons_of_pos _ (by simp)
  have hsucc : check_path [s] "success" 2 s.step_id [] [] = some [] := by
    by_cases hid : pyLower s.step_id = "end"
    · exact check_path_end_eval _ _ _ _ _ _ (Nat.succ_ne_zero _) hid
    · rw [check_path_advance [s] "success" 2 s.step_id [] [] s
        (Nat.succ_ne_zero _) hid (by simp) hfind]
      exact check_path_end_eval _ _ _ _ _ _ (by simp) h1
  have hfail : check_path [s] "failure" 2 s.step_id [] [] = some [] := by
    by_cases hid : pyLower s.step_id = "end"
    · exact check_path_end_eval _ _ _ _ _ _ (Nat.succ_ne_zero _) hid
    · rw [check_path_advance [s] "failure" 2 s.step_id [] [] s
        (Nat.succ_ne_zero _) hid (by simp) hfind]
      exact check_path_end_eval _ _ _ _ _ _ (by simp) h2
  have hdisc : disconnected_steps [s] = [] := by
    simp [disconnected_steps, referenced_steps, h1, h2]
  simp [validate_process_flow, hsucc, hfail, hdisc, h1]

/-- Claim C7 witness: the base cases at a concrete terminal step. -/
theorem c7_base_cases_witness :
    validate_process_flow [] = ["Process must have at least one step"] ∧
    validate_process_flow [mkS "Solo" "End" "end"] = [] :=
  ⟨c7_base_cases.1, c7_base_cases.2 (mkS "Solo" "End" "end") (by decide) (by decide)⟩

/-- Claim C8 (confirmed): add_note with valid fields, a fresh note id and an
existing related step appends the note, links the note id onto the first
matching step only, and returns no issues; with a duplicate note id or a
missing related step it returns a non-empty issue list and leaves both
collections untouched. -/
theorem c8_add_note :
    (∀ (b : ProcessBuilder) (note : ProcessNote) (pre post : List ProcessStep)
        (st : ProcessStep),
        note.validate = [] →
        (∀ n ∈ b.notes, n.note_id ≠ note.note_id) →
        b.steps = pre ++ st :: post →
        (∀ t ∈ pre, t.step_id ≠ note.related_step_id) →
        st.step_id = note.related_step_id →
        add_note b note =
          ([], ProcessBuilder.mk
            (pre ++ { st with note_id := some note.note_id } :: post)
            (b.notes ++ [note]))) ∧
    (∀ (b : ProcessBuilder) (note : ProcessNote),
        ((∃ n ∈ b.notes, n.note_id = note.note_id) ∨
         (∀ s ∈ b.steps, s.step_id ≠ note.related_step_id)) →
        (add_note b note).1 ≠ [] ∧ (add_note b note).2 = b) := by
  constructor
  · intro b note pre post st hv hfresh hsteps hpre hst
    have hdup : b.notes.any (fun n => n.note_id == note.note_id) = false := by
      simp only [List.any_eq_false]
      intro n hn
      simpa using hfresh n hn
    have hrel : b.steps.any (fun t => t.step_id == note.related_step_id) = true := by
      simp only [List.any_eq_true]
      exact ⟨st, by rw [hsteps]; simp, by simp [hst]⟩
    have hlink : link_note_to_step b.steps note =
        pre ++ { st with note_id := some note.note_id } :: post := by
      rw [hsteps]
      exact link_note_to_step_split pre post st note hpre hst
    simp [add_note, hv, hdup, hrel, hlink]
  · intro b note hbad
    by_cases hv : note.validate = []
    · by_cases hdup : b.notes.any (fun n => n.note_id == note.note_id) = true
      · constructor <;> simp [add_note, hv, hdup]
      · have hrel : b.steps.any (fun t => t.step_id == note.related_step_id) = false := by
          rcases hbad with hex | hall
          · exfalso
            apply hdup
            simp only [List.any_eq_true]
            obtain ⟨n, hn, he⟩ := hex
            exact ⟨n, hn, by simp [he]⟩
          · simp only [List.any_eq_false]
            intro t ht
            simpa using hall t ht
        constructor <;> simp [add_note, hv, hdup, hrel]
    · constructor <;> simp [add_note, hv]

/-- Claim C8 witness: a valid note is appended and linked to its step. -/
theorem c8_add_note_witness :
    add_note (ProcessBuilder.mk [sA] [])
      (ProcessNote.mk "N1" "a note" "A" default_created_at) =
      ([], ProcessBuilder.mk [{ sA with note_id := some "N1" }]
        [ProcessNote.mk "N1" "a note" "A" default_created_at]) :=
  c8_add_note.1 (ProcessBuilder.mk [sA] [])
    (ProcessNote.mk "N1" "a note" "A" default_created_at) [] [] sA
    (by decide) (by simp) rfl (by simp) rfl

/-- Claim C9 (confirmed): for every step whose timestamp satisfies the
datetime constructor ranges, from_dict of to_dict returns the original
step, whatever the values of the optional fields. -/
theorem c9_round_trip (s : ProcessStep) (h : s.created_at.valid) :
    ProcessStep.from_dict s.to_dict = some s := by
  have hne : DateTime.isoformat s.created_at ≠ "" := by
    simp [DateTime.isoformat, String.ext_iff, pad4]
  simp only [ProcessStep.from_dict, ProcessStep.to_dict]
  rw [if_pos hne, fromisoformat_isoformat s.created_at h]
  rfl

/-- Claim C9 witness: the round trip at a concrete step with a leap-day
timestamp, populated and null optional fields mixed. -/
theorem c9_round_trip_witness :
    ProcessStep.from_dict (ProcessStep.to_dict
      (ProcessStep.mk "Checkout" "collect payment" "did it work?" "paid" "not paid"
        (some "N1") "Review" "end" none (some "E42") none none
        (DateTime.mk 2024 2 29 23 59 59 123456))) =
      some (ProcessStep.mk "Checkout" "collect payment" "did it work?" "paid" "not paid"
        (some "N1") "Review" "end" none (some "E42") none none
        (DateTime.mk 2024 2 29 23 59 59 123456)) :=
  c9_round_trip _ (by decide)
